import Mathlib

/-!
Verification development for the event-registration page
`src/app/[company_name]/[event_id]/register/page.tsx`.

The page is a client-rendered React component.  We embed its pure decision
logic shallowly:

* JavaScript strings become Lean `String`s; `value.trim()` becomes `jsTrim`,
  implemented over the character list with `Char.isWhitespace` standing in for
  the JavaScript whitespace class.
* The two regular expressions are embedded by their languages:
  `^\d{10,15}$` becomes `phoneRegexTest`, and
  `^[^\s@]+@[^\s@]+\.[^\s@]+$` becomes `emailRegexTest` (the character class
  `[^\s@]` excludes the separator `@`, so the greedy scan `takeWhile` /
  `dropWhile` locates the unique admissible split at the first `@`; the
  domain part matches `[^\s@]+\.[^\s@]+` exactly when all its characters are
  in the class and some dot sits at an interior position, which is
  `hasDotSplit`).
* React component state (the `useState` hooks) becomes the record
  `PageState`; each event handler becomes a pure function from the state
  (plus the network response it awaits) to the new state, together with the
  network request it issues, if any.  A `useState` setter only takes effect
  on the next render, so inside one run of an effect or handler the captured
  variables keep the values they had when the run started; the embedding
  mirrors this by threading explicit record updates and by reading captured
  values from the state the run started with (see `fetchEventDetails`).
-/

namespace RegisterPage

/-- Whitespace test backing `String.prototype.trim`, restricted to the
whitespace characters Lean models. -/
def jsWhitespace (c : Char) : Bool := c.isWhitespace

/-- List-level trim: drop whitespace from the front, then from the back. -/
def trimList (l : List Char) : List Char :=
  ((l.dropWhile jsWhitespace).reverse.dropWhile jsWhitespace).reverse

/-- Embedding of `value.trim()`. -/
def jsTrim (s : String) : String := ⟨trimList s.data⟩

/-- Language of the phone regular expression `^\d{10,15}$` from
`validateField`: exactly the strings made of 10 to 15 ASCII digits. -/
def phoneRegexTest (s : String) : Bool :=
  decide (10 ≤ s.data.length) && decide (s.data.length ≤ 15)
    && s.data.all Char.isDigit

/-- Character class `[^\s@]` of the email regular expression. -/
def isEmailChar (c : Char) : Bool := !c.isWhitespace && c != '@'

/-- Whether the list contains a dot at an interior position (neither first nor
last element); this is the shape `X+\.X+` imposes on the domain once all its
characters are known to lie in the class `X`. -/
def hasDotSplit : List Char → Bool
  | [] => false
  | [_] => false
  | _ :: c :: rest => (c == '.' && !rest.isEmpty) || hasDotSplit (c :: rest)

/-- Language of the email regular expression `^[^\s@]+@[^\s@]+\.[^\s@]+$`
from `validateField`.  Since `[^\s@]` excludes `@`, a match must split the
string at the first character outside the class, which must be `@`; the part
before it is the (necessarily nonempty) local part, and the part after it
must be all class characters containing an interior dot. -/
def emailRegexTest (s : String) : Bool :=
  ((s.data.dropWhile isEmailChar).head? == some '@')
    && !(s.data.takeWhile isEmailChar).isEmpty
    && (s.data.dropWhile isEmailChar).tail.all isEmailChar
    && hasDotSplit (s.data.dropWhile isEmailChar).tail

/-- Embedding of `validateField` (lines 118-141 of the source): maps a field
name and raw value to an error message, the empty string meaning "valid". -/
def validateField (name value : String) : String :=
  if name = "name" then
    if jsTrim value = "" then "Full name is required" else ""
  else if name = "phone" then
    if jsTrim value = "" then "Phone number is required"
    else if phoneRegexTest value then ""
    else "Invalid phone number format. Must be 10-15 digits"
  else if name = "email" then
    if jsTrim value = "" then "Email is required"
    else if emailRegexTest value then ""
    else "Invalid email format"
  else if name = "college" then
    if jsTrim value = "" then "College name is required" else ""
  else if name = "nationalId" then
    if jsTrim value = "" then "National ID is required" else ""
  else ""

example : validateField "phone" "1234567890" = "" := by decide
example : validateField "phone" "123456789" ≠ "" := by decide
example : validateField "phone" " 1234567890" ≠ "" := by decide
example : validateField "email" "a@b.co" = "" := by decide
example : validateField "email" "a@b." ≠ "" := by decide
example : validateField "email" "a@.b" ≠ "" := by decide
example : validateField "email" "a@b" ≠ "" := by decide
example : validateField "email" "a b@c.d" ≠ "" := by decide
example : validateField "name" "  " ≠ "" := by decide
example : validateField "name" " x " = "" := by decide

/-- The `FormData` record of the source (initial values come from the
`useState` initializer). -/
structure FormData where
  name : String
  phone : String
  email : String
  gender : String
  college : String
  status : String
  nationalId : String
  deriving Repr, DecidableEq

/-- The `FormErrors` record of the source: every key is optional; `none`
means the key is absent from the object. -/
structure FormErrors where
  name : Option String
  phone : Option String
  email : Option String
  college : Option String
  nationalId : Option String
  deriving Repr, DecidableEq

/-- The `Event` record returned by the event-listing API. -/
structure Event where
  id : String
  name : String
  image : Option String
  description : String
  date : String
  registrations : Nat
  status : Option String
  companyStatus : Option String
  deriving Repr, DecidableEq

/-- Initial value of the `formData` hook, also used to reset the form after
a successful submission. -/
def initialFormData : FormData :=
  { name := "", phone := "", email := "", gender := "male",
    college := "", status := "student", nationalId := "" }

/-- The empty error object `{}`. -/
def emptyErrors : FormErrors :=
  { name := none, phone := none, email := none, college := none,
    nationalId := none }

/-- All the `useState` hooks of the component, plus the two percent-decoded
route parameters (constants for the lifetime of the page). -/
structure PageState where
  companyName : String
  eventId : String
  formData : FormData
  formErrors : FormErrors
  loading : Bool
  submitting : Bool
  error : String
  success : Bool
  event : Option Event
  eventDisabled : Bool
  companyDisabled : Bool
  deriving Repr, DecidableEq

/-- State of the component right after mount, before the fetch effect runs. -/
def initialState (companyName eventId : String) : PageState :=
  { companyName := companyName, eventId := eventId,
    formData := initialFormData, formErrors := emptyErrors,
    loading := true, submitting := false, error := "", success := false,
    event := none, eventDisabled := false, companyDisabled := false }

/-- Outcome of the `GET /api/events?company=...` call: either a non-ok HTTP
status, or an ok response carrying the event collection. -/
inductive FetchResult where
  | httpError (statusCode : Nat)
  | ok (events : List Event)
  deriving Repr, DecidableEq

/-- Embedding of `toLowerCase()`, mapping the character-level lowering over
the string. -/
def jsToLower (s : String) : String := ⟨s.data.map Char.toLower⟩

/-- The matching predicate of the resolver:
`e.id.trim().toLowerCase() === eventId.trim().toLowerCase()`. -/
def eventMatches (eventId : String) (e : Event) : Bool :=
  jsToLower (jsTrim e.id) == jsToLower (jsTrim eventId)

/-- One run of the `fetchEventDetails` effect (lines 62-116).  The catch
block tests the render-scope variable `companyDisabled`; since `useState`
setters only take effect on the next render, that variable still holds the
value it had when the run started, which the embedding reads from the
incoming state (`cd0`) rather than from the updated one. -/
def fetchEventDetails (st : PageState) (res : FetchResult) : PageState :=
  let cd0 := st.companyDisabled
  let st := { st with loading := true }
  match res with
  | .httpError code =>
      let st := if code = 403 then { st with companyDisabled := true } else st
      let st :=
        if cd0 = false then
          { st with error := "Event not found or no longer available" }
        else st
      { st with loading := false }
  | .ok events =>
      match events.find? (eventMatches st.eventId) with
      | none =>
          let st :=
            if cd0 = false then
              { st with error := "Event not found or no longer available" }
            else st
          { st with loading := false }
      | some ev =>
          let st := { st with event := some ev }
          let st :=
            if ev.status = some "disabled" then
              { st with eventDisabled := true }
            else st
          let st :=
            if ev.companyStatus = some "disabled" then
              { st with companyDisabled := true }
            else st
          { st with loading := false }

/-- The complete loading phase.  The effect lists `companyDisabled` in its
dependency array, so whenever a run changes that flag the effect runs once
more (the flag is only ever raised, never cleared, so at most one extra run
occurs; the network answer for the same parameters is assumed stable). -/
def loadPage (st : PageState) (res : FetchResult) : PageState :=
  let st1 := fetchEventDetails st res
  if st1.companyDisabled ≠ st.companyDisabled then fetchEventDetails st1 res
  else st1

/-- The five views the component can return, in the order the early returns
appear in the source. -/
inductive View where
  | loadingView
  | errorView (msg : String)
  | disabledView (eventDisabled : Bool)
  | successView
  | formView
  deriving Repr, DecidableEq

/-- The render logic of the component (lines 239-632): `loading` first, then
`error && !submitting`, then `eventDisabled || companyDisabled`, then the
main block which shows the success panel when `success` and the form
otherwise. -/
def render (st : PageState) : View :=
  if st.loading then .loadingView
  else if st.error ≠ "" ∧ st.submitting = false then .errorView st.error
  else if st.eventDisabled = true ∨ st.companyDisabled = true then
    .disabledView st.eventDisabled
  else if st.success then .successView
  else .formView

/-- Embedding of the computed-key update `{...prev, [name]: value}` on the
form data, for the seven input names occurring in the markup. -/
def setFormField (fd : FormData) (field value : String) : FormData :=
  if field = "name" then { fd with name := value }
  else if field = "phone" then { fd with phone := value }
  else if field = "email" then { fd with email := value }
  else if field = "gender" then { fd with gender := value }
  else if field = "college" then { fd with college := value }
  else if field = "status" then { fd with status := value }
  else if field = "nationalId" then { fd with nationalId := value }
  else fd

/-- Embedding of `{...prev, [name]: errorMessage}` on the error object.  For
`gender` and `status` the JavaScript object would gain a key no consumer ever
reads (the `FormErrors` interface has no such key), so the embedding leaves
the record unchanged there. -/
def setErrorField (fe : FormErrors) (field msg : String) : FormErrors :=
  if field = "name" then { fe with name := some msg }
  else if field = "phone" then { fe with phone := some msg }
  else if field = "email" then { fe with email := some msg }
  else if field = "college" then { fe with college := some msg }
  else if field = "nationalId" then { fe with nationalId := some msg }
  else fe

/-- Read a form-data entry by its input name. -/
def FormData.get (fd : FormData) (field : String) : String :=
  if field = "name" then fd.name
  else if field = "phone" then fd.phone
  else if field = "email" then fd.email
  else if field = "gender" then fd.gender
  else if field = "college" then fd.college
  else if field = "status" then fd.status
  else if field = "nationalId" then fd.nationalId
  else ""

/-- Read an error-object entry by field name. -/
def FormErrors.get (fe : FormErrors) (field : String) : Option String :=
  if field = "name" then fe.name
  else if field = "phone" then fe.phone
  else if field = "email" then fe.email
  else if field = "college" then fe.college
  else if field = "nationalId" then fe.nationalId
  else none

/-- The input names of the form, in markup order. -/
def fieldNames : List String :=
  ["name", "phone", "email", "gender", "college", "status", "nationalId"]

/-- The free-text fields carrying validation, i.e. the keys of `FormErrors`
(`gender` and `status` are skipped by the submit-time loop). -/
def errorFields : List String :=
  ["name", "phone", "email", "college", "nationalId"]

/-- A registration request, i.e. the body of the `POST /api/events/register`
call: `{companyName, eventName: event.id, ...formData}`. -/
structure RegRequest where
  companyName : String
  eventName : String
  payload : FormData
  deriving Repr, DecidableEq

/-- Outcome of the registration call: ok, or a non-ok response whose JSON
body may or may not carry an `error` field. -/
inductive RegResponse where
  | ok
  | fail (errField : Option String)
  deriving Repr, DecidableEq

/-- JavaScript `x || fallback` on the optional `error` field of a failure
body: an absent or empty (falsy) string yields the fallback. -/
def jsOr (m : Option String) (fallback : String) : String :=
  match m with
  | some s => if s = "" then fallback else s
  | none => fallback

/-- Embedding of `handleChange` (lines 143-155): update the one named entry
of the form data, validate that one field, and store its (possibly empty)
message under that one key of the error object.  The handler performs no
fetch, hence the request component is always `none`. -/
def handleChange (st : PageState) (field value : String) :
    PageState × Option RegRequest :=
  ({ st with
      formData := setFormField st.formData field value,
      formErrors := setErrorField st.formErrors field
        (validateField field value) }, none)

/-- The submit-time revalidation loop over `Object.entries(formData)`
(insertion order: name, phone, email, gender, college, status, nationalId;
`gender` and `status` are skipped): a key is present in the fresh error
object exactly when its validation message is nonempty. -/
def submitErrors (fd : FormData) : FormErrors :=
  let toErr := fun (s : String) => if s = "" then none else some s
  { name := toErr (validateField "name" fd.name),
    phone := toErr (validateField "phone" fd.phone),
    email := toErr (validateField "email" fd.email),
    college := toErr (validateField "college" fd.college),
    nationalId := toErr (validateField "nationalId" fd.nationalId) }

/-- The `hasErrors` accumulator of the same loop. -/
def hasErrors (fd : FormData) : Bool :=
  validateField "name" fd.name != "" || validateField "phone" fd.phone != ""
    || validateField "email" fd.email != ""
    || validateField "college" fd.college != ""
    || validateField "nationalId" fd.nationalId != ""

/-- First half of `handleSubmit` (lines 157-210), up to the point where the
network request is issued: the missing-event guard, the disabled guard, the
full revalidation (whose fresh error object always replaces the previous
one), and on success the `submitting := true` / `error := ''` updates
together with the request body. -/
def submitStart (st : PageState) : PageState × Option RegRequest :=
  match st.event with
  | none =>
      ({ st with error :=
          "Event information is missing. Please refresh the page and try again." },
        none)
  | some ev =>
      if st.eventDisabled = true ∨ st.companyDisabled = true then
        ({ st with error := "Registration is currently disabled for this event." },
          none)
      else
        let st1 := { st with formErrors := submitErrors st.formData }
        if hasErrors st.formData then (st1, none)
        else
          ({ st1 with submitting := true, error := "" },
            some { companyName := st.companyName, eventName := ev.id,
                   payload := st.formData })

/-- Second half of `handleSubmit` (lines 212-236): response handling plus the
`finally` clause.  On ok: `success := true`, form reset to its defaults,
error object cleared.  On failure: the surfaced message is the `error` field
of the body if truthy, else the generic fallback; the form data is left
untouched. -/
def submitFinish (st : PageState) (resp : RegResponse) : PageState :=
  match resp with
  | .ok =>
      { st with success := true, formData := initialFormData,
                formErrors := emptyErrors, submitting := false }
  | .fail m =>
      { st with error := jsOr m "Failed to register for event",
                submitting := false }

/-- Embedding of the whole `handleSubmit` handler: the response is consumed
only when the request is actually issued. -/
def handleSubmit (st : PageState) (resp : RegResponse) :
    PageState × Option RegRequest :=
  match submitStart st with
  | (st1, none) => (st1, none)
  | (st1, some r) => (submitFinish st1 resp, some r)

/-- Reading of claim C3, written from the claim text alone: the string has
exactly one `@`-delimited local/domain split, and the domain contains a dot.
This is compared against the behaviour of `validateField` on the source
regular expression. -/
def emailClaimHolds (s : String) : Prop :=
  ∃ l d : List Char,
    s.data = l ++ '@' :: d ∧ '@' ∉ l ∧ '@' ∉ d ∧ '.' ∈ d

/-! Helper lemmas about trimming and the two regular-expression languages. -/

lemma mem_dropWhile {p : Char → Bool} {c : Char} {l : List Char}
    (h : c ∈ l) (hc : p c = false) : c ∈ l.dropWhile p := by
  induction l with
  | nil => cases h
  | cons a t ih =>
    rcases List.mem_cons.mp h with rfl | ht
    · rw [List.dropWhile_cons_of_neg (by simp [hc])]
      exact List.mem_cons_self _ _
    · by_cases hpa : p a = true
      · rw [List.dropWhile_cons_of_pos hpa]
        exact ih ht
      · rw [List.dropWhile_cons_of_neg (by simp_all)]
        exact List.mem_cons_of_mem _ ht

lemma trimList_ne_nil {c : Char} {l : List Char}
    (h : c ∈ l) (hc : jsWhitespace c = false) : trimList l ≠ [] := by
  unfold trimList
  exact List.ne_nil_of_mem
    (List.mem_reverse.mpr (mem_dropWhile (List.mem_reverse.mpr (mem_dropWhile h hc)) hc))

lemma jsTrim_ne_empty {s : String} {c : Char}
    (h : c ∈ s.data) (hc : jsWhitespace c = false) : jsTrim s ≠ "" := by
  intro he
  exact trimList_ne_nil h hc (congrArg String.data he)

lemma isDigit_not_ws {c : Char} (h : c.isDigit = true) : jsWhitespace c = false := by
  by_contra hw
  rw [Bool.not_eq_false] at hw
  have hcases : ((c = ' ' ∨ c = '\t') ∨ c = '\x0d') ∨ c = '\n' := by
    simpa [jsWhitespace, Char.isWhitespace] using hw
  rcases hcases with ((rfl | rfl) | rfl) | rfl <;> exact absurd h (by decide)

lemma isEmailChar_not_ws {c : Char} (h : isEmailChar c = true) :
    jsWhitespace c = false := by
  simp only [isEmailChar, Bool.and_eq_true, Bool.not_eq_true'] at h
  simpa [jsWhitespace] using h.1

lemma dropWhile_append_all {p : Char → Bool} {l : List Char} {a : Char}
    {r : List Char} (hl : ∀ c ∈ l, p c = true) (ha : p a = false) :
    (l ++ a :: r).dropWhile p = a :: r := by
  induction l with
  | nil =>
    rw [List.nil_append]
    exact List.dropWhile_cons_of_neg (by simp [ha])
  | cons x t ih =>
    rw [List.cons_append, List.dropWhile_cons_of_pos (hl x (by simp))]
    exact ih (fun c hc => hl c (by simp [hc]))

lemma takeWhile_append_all {p : Char → Bool} {l : List Char} {a : Char}
    {r : List Char} (hl : ∀ c ∈ l, p c = true) (ha : p a = false) :
    (l ++ a :: r).takeWhile p = l := by
  induction l with
  | nil =>
    rw [List.nil_append]
    exact List.takeWhile_cons_of_neg (by simp [ha])
  | cons x t ih =>
    rw [List.cons_append, List.takeWhile_cons_of_pos (hl x (by simp))]
    rw [ih (fun c hc => hl c (by simp [hc]))]

lemma hasDotSplit_iff (l : List Char) :
    hasDotSplit l = true ↔
      ∃ A B : List Char, l = A ++ '.' :: B ∧ A ≠ [] ∧ B ≠ [] := by
  induction l with
  | nil =>
    simp only [hasDotSplit, Bool.false_eq_true, false_iff]
    rintro ⟨A, B, h, -, -⟩
    exact absurd h.symm (by simp)
  | cons a t ih =>
    cases t with
    | nil =>
      simp only [hasDotSplit, Bool.false_eq_true, false_iff]
      rintro ⟨A, B, h, hA, -⟩
      cases A with
      | nil => exact hA rfl
      | cons x xs => simp at h
    | cons c rest =>
      constructor
      · intro h
        rcases (by simpa [hasDotSplit, Bool.or_eq_true, Bool.and_eq_true,
            Bool.not_eq_true', List.isEmpty_eq_false] using h :
            (c = '.' ∧ rest ≠ []) ∨ hasDotSplit (c :: rest) = true) with
          ⟨rfl, hrest⟩ | h2
        · exact ⟨[a], rest, rfl, by simp, hrest⟩
        · obtain ⟨A, B, ht, hA, hB⟩ := ih.mp h2
          exact ⟨a :: A, B, by rw [List.cons_append, ← ht], by simp, hB⟩
      · rintro ⟨A, B, heq, hA, hB⟩
        cases A with
        | nil => exact absurd rfl hA
        | cons x A2 =>
          rw [List.cons_append] at heq
          injection heq with h1 h2
          cases A2 with
          | nil =>
            rw [List.nil_append] at h2
            injection h2 with hc hrest
            subst hc
            subst hrest
            simp [hasDotSplit, List.isEmpty_eq_false, hB]
          | cons y Y =>
            rw [List.cons_append] at h2
            have hrec : hasDotSplit (c :: rest) = true :=
              ih.mpr ⟨y :: Y, B, by rw [h2, List.cons_append], by simp, hB⟩
            simp [hasDotSplit, hrec]

lemma emailRegexTest_iff (s : String) :
    emailRegexTest s = true ↔
      ∃ l A B : List Char,
        s.data = l ++ '@' :: (A ++ '.' :: B) ∧ l ≠ [] ∧ A ≠ [] ∧ B ≠ [] ∧
        (∀ c ∈ l, isEmailChar c = true) ∧ (∀ c ∈ A, isEmailChar c = true) ∧
        (∀ c ∈ B, isEmailChar c = true) := by
  constructor
  · intro h
    simp only [emailRegexTest, Bool.and_eq_true, beq_iff_eq,
      Bool.not_eq_true', List.isEmpty_eq_false] at h
    obtain ⟨⟨⟨h1, h2⟩, h3⟩, h4⟩ := h
    rcases hd : s.data.dropWhile isEmailChar with _ | ⟨x, t⟩
    · rw [hd] at h1
      exact absurd h1 (by simp)
    · rw [hd] at h1 h3 h4
      have hx : x = '@' := by simpa using h1
      subst hx
      simp only [List.tail_cons] at h3 h4
      obtain ⟨A, B, hAB, hA, hB⟩ := (hasDotSplit_iff t).mp h4
      subst hAB
      have hsplit := List.takeWhile_append_dropWhile (p := isEmailChar)
        (l := s.data)
      rw [hd] at hsplit
      refine ⟨s.data.takeWhile isEmailChar, A, B, hsplit.symm, h2, hA, hB,
        ?_, ?_, ?_⟩
      · exact fun c hc => List.mem_takeWhile_imp hc
      · intro c hc
        exact List.all_eq_true.mp h3 c (by simp [hc])
      · intro c hc
        exact List.all_eq_true.mp h3 c (by simp [hc])
  · rintro ⟨l, A, B, hs, hl, hA, hB, hcl, hcA, hcB⟩
    have hat : isEmailChar '@' = false := by decide
    have hdrop : s.data.dropWhile isEmailChar = '@' :: (A ++ '.' :: B) := by
      rw [hs]
      exact dropWhile_append_all hcl hat
    have htake : s.data.takeWhile isEmailChar = l := by
      rw [hs]
      exact takeWhile_append_all hcl hat
    have hdall : (A ++ '.' :: B).all isEmailChar = true := by
      simp only [List.all_append, List.all_cons, Bool.and_eq_true]
      exact ⟨List.all_eq_true.mpr hcA, by decide, List.all_eq_true.mpr hcB⟩
    have hds : hasDotSplit (A ++ '.' :: B) = true :=
      (hasDotSplit_iff _).mpr ⟨A, B, rfl, hA, hB⟩
    simp [emailRegexTest, hdrop, htake, hdall, hds, hl,
      List.isEmpty_eq_false]

lemma validate_phone_empty_iff (s : String) :
    validateField "phone" s = "" ↔ phoneRegexTest s = true := by
  unfold validateField
  rw [if_neg (by decide), if_pos rfl]
  by_cases ht : jsTrim s = ""
  · rw [if_pos ht]
    constructor
    · intro h
      exact absurd h (by decide)
    · intro hp
      simp only [phoneRegexTest, Bool.and_eq_true, decide_eq_true_eq] at hp
      obtain ⟨⟨h10, -⟩, hall⟩ := hp
      have hne : s.data ≠ [] := by
        intro h0
        rw [h0] at h10
        simp at h10
      obtain ⟨c, hc⟩ := List.exists_mem_of_ne_nil s.data hne
      exact absurd ht
        (jsTrim_ne_empty hc (isDigit_not_ws (List.all_eq_true.mp hall c hc)))
  · rw [if_neg ht]
    by_cases hp : phoneRegexTest s = true
    · rw [if_pos hp]
      simp [hp]
    · rw [if_neg hp]
      constructor
      · intro h
        exact absurd h (by decide)
      · intro h
        exact absurd h hp

lemma validate_email_empty_iff (s : String) :
    validateField "email" s = "" ↔ emailRegexTest s = true := by
  unfold validateField
  rw [if_neg (by decide), if_neg (by decide), if_pos rfl]
  by_cases ht : jsTrim s = ""
  · rw [if_pos ht]
    constructor
    · intro h
      exact absurd h (by decide)
    · intro hr
      obtain ⟨l, A, B, hs, -, -, -, -, -, -⟩ := (emailRegexTest_iff s).mp hr
      have hat : ('@' : Char) ∈ s.data := by
        rw [hs]
        simp
      exact absurd ht (jsTrim_ne_empty hat (by decide))
  · rw [if_neg ht]
    by_cases hr : emailRegexTest s = true
    · rw [if_pos hr]
      simp [hr]
    · rw [if_neg hr]
      constructor
      · intro h
        exact absurd h (by decide)
      · intro h
        exact absurd h hr

/-! Sample data used by the concrete instantiations. -/

/-- A sample enabled event, as the listing API would return it. -/
def evLaunch : Event :=
  { id := "launch-party", name := "Launch Party", image := none,
    description := "A launch.", date := "2025-01-01", registrations := 0,
    status := none, companyStatus := none }

/-- The valid sample form payload of the spec scenario. -/
def adaForm : FormData :=
  { name := "Ada Lovelace", phone := "1234567890", email := "a@b.co",
    gender := "female", college := "MIT", status := "student",
    nationalId := "29912345678901" }

/-- A page state sitting in the editing state with the sample payload typed
in; the URL event identifier differs from the stored identifier in case. -/
def editingState : PageState :=
  { companyName := "Acme", eventId := "Launch-Party",
    formData := adaForm, formErrors := emptyErrors,
    loading := false, submitting := false, error := "", success := false,
    event := some evLaunch, eventDisabled := false, companyDisabled := false }

/-! Claim theorems. -/

/-- C2: `validate('phone', s)` returns the empty string if and only if `s`
consists of 10 to 15 digit characters and nothing else (the language of
`^\d{10,15}$`); otherwise the returned message is nonempty. -/
theorem validate_phone_iff_ten_to_fifteen_digits (s : String) :
    validateField "phone" s = "" ↔
      10 ≤ s.data.length ∧ s.data.length ≤ 15 ∧
        s.data.all Char.isDigit = true := by
  rw [validate_phone_empty_iff]
  simp [phoneRegexTest, Bool.and_eq_true, decide_eq_true_eq, and_assoc]

/-- Instantiation of the phone characterization at a concrete accepted
number. -/
theorem validate_phone_iff_ten_to_fifteen_digits_witness :
    validateField "phone" "1234567890" = "" ↔
      10 ≤ "1234567890".data.length ∧ "1234567890".data.length ≤ 15 ∧
        "1234567890".data.all Char.isDigit = true :=
  validate_phone_iff_ten_to_fifteen_digits "1234567890"

/-- C3, counterexample: on the input `"a@b."` the claimed characterization
(exactly one `@`-delimited split whose domain part contains a dot) holds,
yet the code rejects the string, because the regular expression additionally
requires a nonempty run of class characters after the dot. -/
theorem validate_email_claim_counterexample :
    ¬ (validateField "email" "a@b." = "" ↔ emailClaimHolds "a@b.") := by
  intro h
  have hclaim : emailClaimHolds "a@b." :=
    ⟨['a'], ['b', '.'], by decide, by decide, by decide, by decide⟩
  exact absurd (h.mpr hclaim) (by decide)

/-- C3, amended: `validate('email', s)` returns the empty string iff `s`
splits as `local@domain` where `local` is a nonempty run of characters that
are neither whitespace nor `@`, and `domain` consists of such characters and
contains a dot at an interior position, i.e. `domain = A.B` with `A` and `B`
nonempty. -/
theorem validate_email_iff_strict_shape (s : String) :
    validateField "email" s = "" ↔
      ∃ l A B : List Char,
        s.data = l ++ '@' :: (A ++ '.' :: B) ∧ l ≠ [] ∧ A ≠ [] ∧ B ≠ [] ∧
        (∀ c ∈ l, isEmailChar c = true) ∧ (∀ c ∈ A, isEmailChar c = true) ∧
        (∀ c ∈ B, isEmailChar c = true) := by
  rw [validate_email_empty_iff]
  exact emailRegexTest_iff s

/-- Instantiation of the amended email characterization at a concrete
accepted address. -/
theorem validate_email_iff_strict_shape_witness :
    validateField "email" "a@b.co" = "" ↔
      ∃ l A B : List Char,
        "a@b.co".data = l ++ '@' :: (A ++ '.' :: B) ∧ l ≠ [] ∧ A ≠ [] ∧
        B ≠ [] ∧
        (∀ c ∈ l, isEmailChar c = true) ∧ (∀ c ∈ A, isEmailChar c = true) ∧
        (∀ c ∈ B, isEmailChar c = true) :=
  validate_email_iff_strict_shape "a@b.co"

/-- C4, behaviour actually implemented: when the event lookup answers 403,
the catch block still reads the stale render-scope value of
`companyDisabled` (false), so it also records the generic fetch error, and
at render time the error view is checked before the disabled view; the final
page therefore shows the generic "Event not found or no longer available"
view, not the organization-disabled view, even though the
`companyDisabled` flag is raised. -/
theorem http403_shows_generic_error_view :
    (loadPage (initialState "Acme" "launch-party")
        (.httpError 403)).companyDisabled = true ∧
    (loadPage (initialState "Acme" "launch-party") (.httpError 403)).error =
      "Event not found or no longer available" ∧
    render (loadPage (initialState "Acme" "launch-party") (.httpError 403)) =
      .errorView "Event not found or no longer available" := by
  decide

/-- C5: a resolved event whose own status flag is `disabled`, inside an
enabled organization, puts the page in the event-disabled blocking view; the
form is not rendered. -/
theorem disabled_event_shows_blocking_view
    (cn eid : String) (events : List Event) (ev : Event)
    (hfind : events.find? (eventMatches eid) = some ev)
    (hs : ev.status = some "disabled")
    (hc : ev.companyStatus ≠ some "disabled") :
    (loadPage (initialState cn eid) (.ok events)).eventDisabled = true ∧
    (loadPage (initialState cn eid) (.ok events)).companyDisabled = false ∧
    (loadPage (initialState cn eid) (.ok events)).event = some ev ∧
    render (loadPage (initialState cn eid) (.ok events)) =
      .disabledView true := by
  have hfetch : fetchEventDetails (initialState cn eid) (.ok events) =
      { initialState cn eid with loading := false, event := some ev, eventDisabled := true } := by
    unfold fetchEventDetails
    simp only [initialState]
    rw [hfind]
    simp [hs, hc]
  unfold loadPage
  rw [hfetch]
  simp [initialState, render]

/-- Instantiation of the event-disabled scenario at a concrete event. -/
theorem disabled_event_shows_blocking_view_witness :
    render (loadPage (initialState "Acme" "party")
      (.ok [{ evLaunch with id := "party", status := some "disabled" }])) =
      .disabledView true := by
  have h := disabled_event_shows_blocking_view "Acme" "party"
    [{ evLaunch with id := "party", status := some "disabled" }]
    { evLaunch with id := "party", status := some "disabled" }
    (by decide) (by decide) (by decide)
  exact h.2.2.2

/-- C6: the resolver selects an event exactly when its identifier equals the
requested identifier after trimming and lowercasing both sides; whenever a
selected event carries no disabled flags, the page reaches the editing state
(the form view). -/
theorem resolver_matches_iff_case_insensitive_trim
    (eid : String) (events : List Event) :
    (∀ e, events.find? (eventMatches eid) = some e →
        e ∈ events ∧ jsToLower (jsTrim e.id) = jsToLower (jsTrim eid)) ∧
    ((events.find? (eventMatches eid)).isSome = true ↔
        ∃ e ∈ events, jsToLower (jsTrim e.id) = jsToLower (jsTrim eid)) ∧
    (∀ cn e, events.find? (eventMatches eid) = some e →
        e.status ≠ some "disabled" → e.companyStatus ≠ some "disabled" →
        render (loadPage (initialState cn eid) (.ok events)) = .formView) := by
  refine ⟨?_, ?_, ?_⟩
  · intro e he
    refine ⟨List.mem_of_find?_eq_some he, ?_⟩
    have := List.find?_some he
    simpa [eventMatches] using this
  · rw [List.find?_isSome]
    constructor
    · rintro ⟨e, hmem, hp⟩
      exact ⟨e, hmem, by simpa [eventMatches] using hp⟩
    · rintro ⟨e, hmem, hp⟩
      exact ⟨e, hmem, by simpa [eventMatches] using hp⟩
  · intro cn e he hs hc
    have hfetch : fetchEventDetails (initialState cn eid) (.ok events) =
        { initialState cn eid with loading := false, event := some e } := by
      unfold fetchEventDetails
      simp only [initialState]
      rw [he]
      simp [hs, hc]
    unfold loadPage
    rw [hfetch]
    simp [initialState, render]

/-- Instantiation of the resolver characterization at the scenario of the
spec: requested identifier `"Launch-Party"`, stored identifier
`"launch-party"`; the case-mismatched identifiers match and the page reaches
the editing state. -/
theorem resolver_matches_iff_case_insensitive_trim_witness :
    render (loadPage (initialState "Acme" "Launch-Party") (.ok [evLaunch])) =
      .formView := by
  have h := resolver_matches_iff_case_insensitive_trim "Launch-Party"
    [evLaunch]
  exact h.2.2 "Acme" evLaunch (by decide) (by decide) (by decide)

/-- C1: from the editing state, submitting while some required free-text
field fails validation re-validates everything, stores exactly the fresh
error map, performs no network call, never raises the submitting flag, and
leaves the page on the form view. -/
theorem submit_rejected_when_field_invalid (st : PageState) (ev : Event)
    (resp : RegResponse)
    (hev : st.event = some ev) (hed : st.eventDisabled = false)
    (hcd : st.companyDisabled = false) (hld : st.loading = false)
    (herr : st.error = "") (hsub : st.submitting = false)
    (hsc : st.success = false)
    (hbad : validateField "name" st.formData.name ≠ "" ∨
            validateField "phone" st.formData.phone ≠ "" ∨
            validateField "email" st.formData.email ≠ "" ∨
            validateField "college" st.formData.college ≠ "" ∨
            validateField "nationalId" st.formData.nationalId ≠ "") :
    handleSubmit st resp =
      ({ st with formErrors := submitErrors st.formData }, none) ∧
    (handleSubmit st resp).1.submitting = false ∧
    (handleSubmit st resp).1.formData = st.formData ∧
    render (handleSubmit st resp).1 = .formView := by
  have hdis : ¬ (st.eventDisabled = true ∨ st.companyDisabled = true) := by
    simp [hed, hcd]
  have hv : hasErrors st.formData = true := by
    simp only [hasErrors, Bool.or_eq_true, bne_iff_ne, ne_eq]
    tauto
  have hstart : submitStart st =
      ({ st with formErrors := submitErrors st.formData }, none) := by
    simp [submitStart, hev, hed, hcd, hv]
  have hfull : handleSubmit st resp =
      ({ st with formErrors := submitErrors st.formData }, none) := by
    unfold handleSubmit
    rw [hstart]
  rw [hfull]
  simp [render, hld, herr, hsub, hed, hcd, hsc]

/-- Instantiation of the rejected submission: the sample editing state with
an empty name field. -/
theorem submit_rejected_when_field_invalid_witness :
    (handleSubmit { editingState with
        formData := { adaForm with name := "" } } .ok).2 = none ∧
    render (handleSubmit { editingState with
        formData := { adaForm with name := "" } } .ok).1 = .formView := by
  have h := submit_rejected_when_field_invalid
    { editingState with formData := { adaForm with name := "" } } evLaunch
    .ok rfl rfl rfl rfl rfl rfl rfl (Or.inl (by decide))
  exact ⟨by rw [h.1], h.2.2.2⟩

/-- C7: a fully valid submission raises the submitting flag, issues the
request, and on a successful response lands on the success view with the
form payload reset to its defaults and the error map cleared. -/
theorem successful_submit_resets_form (st : PageState) (ev : Event)
    (hev : st.event = some ev) (hed : st.eventDisabled = false)
    (hcd : st.companyDisabled = false) (hld : st.loading = false)
    (hval : hasErrors st.formData = false) :
    (submitStart st).1.submitting = true ∧
    (submitStart st).2 = some ⟨st.companyName, ev.id, st.formData⟩ ∧
    (handleSubmit st .ok).1.success = true ∧
    (handleSubmit st .ok).1.formData = initialFormData ∧
    (handleSubmit st .ok).1.formErrors = emptyErrors ∧
    (handleSubmit st .ok).1.submitting = false ∧
    render (handleSubmit st .ok).1 = .successView := by
  have hdis : ¬ (st.eventDisabled = true ∨ st.companyDisabled = true) := by
    simp [hed, hcd]
  have hv : ¬ (hasErrors st.formData = true) := by
    simp [hval]
  have hstart : submitStart st =
      ({ st with formErrors := submitErrors st.formData, submitting := true, error := "" },
        some ⟨st.companyName, ev.id, st.formData⟩) := by
    simp [submitStart, hev, hed, hcd, hval]
  have hfull : handleSubmit st .ok =
      ({ st with formErrors := emptyErrors, submitting := false, error := "", success := true, formData := initialFormData },
        some ⟨st.companyName, ev.id, st.formData⟩) := by
    unfold handleSubmit
    rw [hstart]
    rfl
  rw [hstart, hfull]
  simp [render, hld, hed, hcd]

/-- Instantiation of the successful-submission scenario at the sample
payload of the spec. -/
theorem successful_submit_resets_form_witness :
    (handleSubmit editingState .ok).1.success = true ∧
    (handleSubmit editingState .ok).1.formData = initialFormData := by
  have h := successful_submit_resets_form editingState evLaunch
    rfl rfl rfl rfl (by decide)
  exact ⟨h.2.2.1, h.2.2.2.1⟩

/-- C8, behaviour actually implemented: when the registration call fails
with a server-provided reason, the handler does store that reason and clear
the submitting flag, and the form values stay in memory unchanged — but the
next render then satisfies `error && !submitting`, so the page shows the
full-page blocking error view instead of the editing form with an inline
banner; the preserved values are unreachable and no retry is possible. -/
theorem failed_submit_shows_blocking_error_view :
    (handleSubmit editingState (.fail (some "Duplicate registration"))).1.error =
      "Duplicate registration" ∧
    (handleSubmit editingState (.fail (some "Duplicate registration"))).1.submitting = false ∧
    (handleSubmit editingState (.fail (some "Duplicate registration"))).1.formData = adaForm ∧
    (handleSubmit editingState (.fail (some "Duplicate registration"))).1.success = false ∧
    render (handleSubmit editingState (.fail (some "Duplicate registration"))).1 =
      .errorView "Duplicate registration" := by
  decide

/-- C10: whenever a valid submission issues its request, the request body
carries the resolved event identifier exactly as the listing API returned
it, not the URL event identifier of the page. -/
theorem request_uses_resolved_event_id (st : PageState) (ev : Event)
    (hev : st.event = some ev) (hed : st.eventDisabled = false)
    (hcd : st.companyDisabled = false)
    (hval : hasErrors st.formData = false) :
    (submitStart st).2 = some ⟨st.companyName, ev.id, st.formData⟩ ∧
    ∀ req, (submitStart st).2 = some req → req.eventName = ev.id := by
  have hv : ¬ (hasErrors st.formData = true) := by
    simp [hval]
  have hstart : submitStart st =
      ({ st with formErrors := submitErrors st.formData, submitting := true, error := "" },
        some ⟨st.companyName, ev.id, st.formData⟩) := by
    simp [submitStart, hev, hed, hcd, hval]
  rw [hstart]
  refine ⟨rfl, ?_⟩
  rintro req h
  injection h with h2
  rw [← h2]

/-- Instantiation of the request body: the page was reached through the
case-mismatched URL identifier `"Launch-Party"`, yet the issued request
names the stored identifier `"launch-party"`. -/
theorem request_uses_resolved_event_id_witness :
    (submitStart editingState).2 =
      some ⟨"Acme", "launch-party", adaForm⟩ ∧
    editingState.eventId = "Launch-Party" := by
  have h := request_uses_resolved_event_id editingState evLaunch
    rfl rfl rfl (by decide)
  exact ⟨h.1, rfl⟩

/-- C9: a change event on one named field updates exactly that entry of the
form data and exactly that entry of the error map (storing that single
field's fresh validation message), leaves every other field, every other
error entry, the event snapshot, both disabled flags and all remaining page
state unchanged, and performs no network call. -/
theorem change_updates_only_named_field (st : PageState) (f v : String)
    (hf : f ∈ fieldNames) :
    (handleChange st f v).2 = none ∧
    (handleChange st f v).1.formData.get f = v ∧
    (∀ g ∈ fieldNames, g ≠ f →
      (handleChange st f v).1.formData.get g = st.formData.get g) ∧
    (f ∈ errorFields →
      (handleChange st f v).1.formErrors.get f = some (validateField f v)) ∧
    (∀ g ∈ errorFields, g ≠ f →
      (handleChange st f v).1.formErrors.get g = st.formErrors.get g) ∧
    (handleChange st f v).1.event = st.event ∧
    (handleChange st f v).1.eventDisabled = st.eventDisabled ∧
    (handleChange st f v).1.companyDisabled = st.companyDisabled ∧
    (handleChange st f v).1.loading = st.loading ∧
    (handleChange st f v).1.submitting = st.submitting ∧
    (handleChange st f v).1.success = st.success ∧
    (handleChange st f v).1.error = st.error := by
  have hf2 : f = "name" ∨ f = "phone" ∨ f = "email" ∨ f = "gender" ∨
      f = "college" ∨ f = "status" ∨ f = "nationalId" := by
    simpa [fieldNames] using hf
  rcases hf2 with rfl | rfl | rfl | rfl | rfl | rfl | rfl <;>
    refine ⟨rfl, rfl, ?_, ?_, ?_, rfl, rfl, rfl, rfl, rfl, rfl, rfl⟩ <;>
    first
      | (intro g hg hne
         have hg2 : g = "name" ∨ g = "phone" ∨ g = "email" ∨ g = "gender" ∨
             g = "college" ∨ g = "status" ∨ g = "nationalId" := by
           simpa [fieldNames] using hg
         rcases hg2 with rfl | rfl | rfl | rfl | rfl | rfl | rfl <;>
           first | exact absurd rfl hne | rfl)
      | (intro g hg hne
         have hg2 : g = "name" ∨ g = "phone" ∨ g = "email" ∨
             g = "college" ∨ g = "nationalId" := by
           simpa [errorFields] using hg
         rcases hg2 with rfl | rfl | rfl | rfl | rfl <;>
           first | exact absurd rfl hne | rfl)
      | exact fun _ => rfl
      | exact fun h => absurd h (by decide)

/-- Instantiation of the single-field update: changing the phone field of
the sample editing state. -/
theorem change_updates_only_named_field_witness :
    (handleChange editingState "phone" "0123456789").2 = none ∧
    (handleChange editingState "phone" "0123456789").1.formData.get "phone" =
      "0123456789" ∧
    (handleChange editingState "phone" "0123456789").1.formData.get "email" =
      editingState.formData.get "email" := by
  have h := change_updates_only_named_field editingState "phone" "0123456789"
    (by decide)
  exact ⟨h.1, h.2.1, h.2.2.1 "email" (by decide) (by decide)⟩

end RegisterPage
